import Mathlib

/-!
# A formal model of blug's site-assembly pipeline

This file gives a shallow embedding, in Lean 4, of the core of `blug.py`
(the static blog generator): slug and path derivation, post loading from
the markdown engine's output, descending-date sorting, category grouping,
pagination windows, previous-post linking, and the per-post render step.
Each definition mirrors the corresponding Python function; theorems below
establish (or refute) the documented properties of those functions.
-/

/-! ## Character-level facts

`blug.py` manipulates titles character by character (`title.lower()`,
`char.isalnum()`).  These lemmas characterise Lean's `Char.toLower`,
`Char.isUpper`, `Char.isAlphanum` by the character's code point so that
later proofs can reason arithmetically.
-/

theorem uint32_le_iff (a b : UInt32) : (a ≤ b) ↔ a.toNat ≤ b.toNat := by
  rw [UInt32.le_def, BitVec.le_def]; rfl

theorem char_toNat_ofNat_valid (n : Nat) (h : n.isValidChar) : (Char.ofNat n).toNat = n := by
  rw [Char.ofNat, dif_pos h]
  simp [Char.ofNatAux, Char.toNat, UInt32.toNat]

theorem char_eq_of_toNat_eq {a b : Char} (h : a.toNat = b.toNat) : a = b :=
  Char.ext (UInt32.ext h)

theorem toLower_toNat (c : Char) :
    (Char.toLower c).toNat = if 65 ≤ c.toNat ∧ c.toNat ≤ 90 then c.toNat + 32 else c.toNat := by
  simp only [Char.toLower]
  split
  · rename_i h
    exact char_toNat_ofNat_valid _ (Or.inl (by omega))
  · rfl

theorem isUpper_iff (c : Char) : c.isUpper = true ↔ 65 ≤ c.toNat ∧ c.toNat ≤ 90 := by
  simp only [Char.isUpper, Bool.and_eq_true, decide_eq_true_eq, ge_iff_le, uint32_le_iff]
  exact Iff.rfl

theorem isLower_iff (c : Char) : c.isLower = true ↔ 97 ≤ c.toNat ∧ c.toNat ≤ 122 := by
  simp only [Char.isLower, Bool.and_eq_true, decide_eq_true_eq, ge_iff_le, uint32_le_iff]
  exact Iff.rfl

theorem isDigit_iff (c : Char) : c.isDigit = true ↔ 48 ≤ c.toNat ∧ c.toNat ≤ 57 := by
  simp only [Char.isDigit, Bool.and_eq_true, decide_eq_true_eq, ge_iff_le, uint32_le_iff]
  exact Iff.rfl

theorem isAlphanum_iff (c : Char) : c.isAlphanum = true ↔
    (48 ≤ c.toNat ∧ c.toNat ≤ 57) ∨ (65 ≤ c.toNat ∧ c.toNat ≤ 90) ∨
      (97 ≤ c.toNat ∧ c.toNat ≤ 122) := by
  simp only [Char.isAlphanum, Char.isAlpha, Bool.or_eq_true, isUpper_iff, isLower_iff,
    isDigit_iff]
  tauto

/-! ## Data model -/

/-- A parsed timestamp, as produced by
`datetime.strptime(s, '%Y-%m-%d %H:%M')` in `get_all_posts`. -/
structure DateTime where
  year : Nat
  month : Nat
  day : Nat
  hour : Nat
  minute : Nat
deriving DecidableEq, Repr, Inhabited

/-- Lexicographic comparison of timestamps, mirroring Python `datetime`
ordering (year, then month, day, hour, minute). -/
def DateTime.leB (a b : DateTime) : Bool :=
  decide (a.year < b.year) ||
    (a.year == b.year && (decide (a.month < b.month) ||
      (a.month == b.month && (decide (a.day < b.day) ||
        (a.day == b.day && (decide (a.hour < b.hour) ||
          (a.hour == b.hour && decide (a.minute ≤ b.minute))))))))

/-- The post dictionary built by `get_all_posts` (blug.py lines 48-96),
one field per key assigned there. -/
structure Post where
  title : String
  date : DateTime
  categories : List String
  body : String
  teaser : String
  relative_path : String
  relative_url : String
  canonical_url : String
deriving DecidableEq, Repr, Inhabited

/-! ## Slug and path derivation -/

/-- Character-level body of `generate_post_file_name` (blug.py lines 25-29):
lower-case every character, keep only the alphanumeric characters and
spaces, then turn each remaining space into a hyphen. -/
def slugChars (l : List Char) : List Char :=
  ((l.map Char.toLower).filter (fun c => c.isAlphanum || c == ' ')).map
    (fun c => if c == ' ' then '-' else c)

/-- `generate_post_file_name(title)` from blug.py. -/
def generate_post_file_name (title : String) : String :=
  ⟨slugChars title.data⟩

/-- Zero-padded decimal rendering of a number, as `strftime` produces for
`%Y` (width 4), `%m` and `%d` (width 2). -/
def padNum (width n : Nat) : String :=
  ⟨List.replicate (width - (toString n).length) '0' ++ (toString n).data⟩

/-- `datetime.strftime(date, '%Y/%m/%d/')` as used in
`generate_post_file_path`. -/
def formatDatePath (d : DateTime) : String :=
  padNum 4 d.year ++ "/" ++ padNum 2 d.month ++ "/" ++ padNum 2 d.day ++ "/"

/-- Model of `os.path.join` on two components (POSIX rules: an absolute
second component discards the first; otherwise exactly one separator
stands between the components). -/
def pathJoin (a b : String) : String :=
  if b.data.head? = some '/' then b
  else if a.data = [] then b
  else if a.data.getLast? = some '/' then a ++ b
  else a ++ "/" ++ b

/-- `generate_post_file_path(title, date)` from blug.py (lines 32-36). -/
def generate_post_file_path (title : String) (date : DateTime) : String :=
  pathJoin (formatDatePath date) (generate_post_file_name title)

/-! ## Post loading -/

/-- First component of Python's `str.partition(sep)`: the part of the
string strictly before the first occurrence of `sep`, the whole string
when `sep` does not occur. -/
def partBefore (sep : List Char) : List Char → List Char
  | [] => []
  | c :: rest => if sep.isPrefixOf (c :: rest) then [] else c :: partBefore sep rest

/-- String-level wrapper for `partBefore`. -/
def partitionBefore (s sep : String) : String :=
  ⟨partBefore sep.data s.data⟩

/-- The teaser/body split marker used on blug.py line 66. -/
def moreMarker : String := "<!--more-->"

/-- Python `str.split()` with no argument: split on whitespace and drop
the empty pieces. -/
def pySplit (s : String) : List String :=
  (s.split Char.isWhitespace).filter (fun piece => piece != "")

/-- Key lookup in the markdown engine's `Meta` map (each key holds a list
of string values); `none` models a Python `KeyError`. -/
def metaLookup (metaMap : List (String × List String)) (key : String) :
    Option (List String) :=
  (metaMap.find? (fun kv => kv.fst == key)).map Prod.snd

/-- Read a non-empty all-digit character sequence as a decimal number. -/
def digitsToNat (cs : List Char) : Option Nat :=
  if cs ≠ [] ∧ cs.all Char.isDigit then
    some (cs.foldl (fun acc c => acc * 10 + (c.toNat - 48)) 0)
  else none

/-- `datetime.strptime(s, '%Y-%m-%d %H:%M')` on its zero-padded input
shape: sixteen characters `YYYY-MM-DD HH:MM` with in-range fields;
`none` models a `ValueError`. -/
def parseDate (s : String) : Option DateTime :=
  match s.data with
  | [y1, y2, y3, y4, s1, m1, m2, s2, d1, d2, s3, h1, h2, s4, n1, n2] =>
    if s1 = '-' ∧ s2 = '-' ∧ s3 = ' ' ∧ s4 = ':' then
      match digitsToNat [y1, y2, y3, y4], digitsToNat [m1, m2], digitsToNat [d1, d2],
          digitsToNat [h1, h2], digitsToNat [n1, n2] with
      | some y, some mo, some d, some h, some n =>
        if 1 ≤ mo ∧ mo ≤ 12 ∧ 1 ≤ d ∧ d ≤ 31 ∧ h ≤ 23 ∧ n ≤ 59 then
          some ⟨y, mo, d, h, n⟩
        else none
      | _, _, _, _, _ => none
    else none
  | _ => none

/-- Per-file body of `get_all_posts` (blug.py lines 48-96): build the post
dictionary from the markdown engine's output (`generated_html` plus the
`Meta` map) and the site settings.  `none` models an uncaught Python
exception there (`KeyError` on a missing metadata key, `IndexError` on an
empty value list, `ValueError` from `strptime`). -/
def loadPost (generated_html : String) (metaMap : List (String × List String))
    (blogPrefix : String) (canonical_url : String) (blog_root : String) :
    Option Post := do
  let title ← (← metaLookup metaMap "title").head?
  let teaser := partitionBefore generated_html moreMarker
  let catLine ← (← metaLookup metaMap "categories").head?
  let categories := pySplit catLine
  let dateLine ← (← metaLookup metaMap "date").head?
  let date ← parseDate dateLine.trim
  let basePath := generate_post_file_path title date
  let relative_path := if blogPrefix ≠ "" then pathJoin blogPrefix basePath else basePath
  let relative_url :=
    if blog_root ≠ "" then pathJoin (pathJoin "/" blog_root) relative_path
    else pathJoin "/" relative_path
  some { title := title, date := date, categories := categories,
         body := generated_html, teaser := teaser,
         relative_path := relative_path, relative_url := relative_url,
         canonical_url := canonical_url ++ relative_url }

/-! ## Site assembly -/

/-- `all_posts.sort(key=lambda i: i['date'], reverse=True)` (blug.py line
238): Python's stable sort under the reversed date comparison, modelled by
the stable `List.mergeSort`. -/
def sortByDateDescending (posts : List Post) : List Post :=
  posts.mergeSort (fun a b => DateTime.leB b.date a.date)

/-- Lines 239-242 of blug.py: the list that `categories[cat]` holds after
the nested append loop, viewed one category name at a time. -/
def categoryBucket (posts : List Post) (cat : String) : List Post :=
  posts.foldl
    (fun acc p =>
      p.categories.foldl (fun acc2 c => if c == cat then acc2 ++ [p] else acc2) acc)
    []

/-- Lines 258-262 of blug.py: pair each post with the `post_previous`
reference assigned to it — `all_posts[index + 1]`, falling back to
`all_posts[0]` when the index runs past the end. -/
def linkPrevious (posts : List Post) : List (Post × Post) :=
  (List.range posts.length).map (fun index =>
    (posts.getD index default,
     if index + 1 < posts.length then posts.getD (index + 1) default
     else posts.getD 0 default))

/-- One pagination window: the posts shown on `page/<n>/index.html`, its
page number, and the `next_page` template variable. -/
structure PageWindow where
  current_posts : List Post
  page : Nat
  next_page : Option Nat
deriving DecidableEq, Repr

/-- Loop body of `generate_pagination_pages` (blug.py lines 208-228),
started at `offset = 5`, `current_page = 1`: each window holds
`all_posts[offset : offset + 5]`, and `next_page` is cleared once
`current_page * 5 >= num_posts - 5` (Python integer arithmetic). -/
def paginateFrom (all_posts : List Post) (offset current_page : Nat) :
    List PageWindow :=
  if offset < all_posts.length then
    { current_posts := (all_posts.drop offset).take 5,
      page := current_page,
      next_page :=
        if ((current_page * 5 : Int) ≥ (all_posts.length : Int) - 5) then none
        else some (current_page + 1) } ::
      paginateFrom all_posts (offset + 5) (current_page + 1)
  else []
termination_by all_posts.length - offset
decreasing_by omega

/-- `generate_pagination_pages` from blug.py: the windows produced by
`range(5, num_posts, 5)`. -/
def generate_pagination_pages (all_posts : List Post) : List PageWindow :=
  paginateFrom all_posts 5 1

/-- `generate_post` (blug.py lines 111-127): either the fatal
empty-content error carrying its message, or the output path /
rendered-string pair handed to the file write.  The error is raised
before any directory creation or file output happens. -/
def generate_post (post : Post) (output_dir : String) (render : Post → String) :
    Except String (String × String) :=
  let output_path := pathJoin (pathJoin output_dir post.relative_path) "index.html"
  if post.body = "" then
    Except.error ("No content for post [" ++ post.relative_path ++ "] found.")
  else
    Except.ok (output_path, render post)

/-! ## Concrete sample data -/

/-- A post with the given title, date and categories and fixed content;
used only to instantiate theorems on concrete inputs. -/
def mkPost (t : String) (d : DateTime) (cats : List String) : Post :=
  { title := t, date := d, categories := cats, body := "<p>x</p>",
    teaser := "<p>x</p>", relative_path := t, relative_url := "/" ++ t,
    canonical_url := "http://example.com/" ++ t }

/-- Twelve posts in descending date order. -/
def samplePosts12 : List Post :=
  (List.range 12).map (fun i => mkPost (toString i) ⟨2024, 1, 30 - i, 0, 0⟩ [])

/-- Three posts in descending date order (the newest first). -/
def tP1 : Post := mkPost "one" ⟨2024, 1, 3, 0, 0⟩ ["a"]
def tP2 : Post := mkPost "two" ⟨2024, 1, 2, 0, 0⟩ ["a", "b"]
def tP3 : Post := mkPost "three" ⟨2024, 1, 1, 0, 0⟩ []

def threePosts : List Post := [tP1, tP2, tP3]

/-- A metadata map with `title` and `date` but no `categories` key. -/
def metaNoCats : List (String × List String) :=
  [("title", ["My Post"]), ("date", ["2024-03-07 10:00"])]

/-- A post whose rendered body is empty. -/
def emptyBodyPost : Post :=
  { title := "empty", date := ⟨2024, 1, 1, 0, 0⟩, categories := [],
    body := "", teaser := "", relative_path := "2024/01/01/empty",
    relative_url := "/2024/01/01/empty",
    canonical_url := "http://example.com/2024/01/01/empty" }

/-! ## Order lemmas for `DateTime.leB` -/

theorem DateTime.leB_refl (a : DateTime) : DateTime.leB a a = true := by
  simp [DateTime.leB]

theorem DateTime.leB_total (a b : DateTime) :
    (DateTime.leB a b || DateTime.leB b a) = true := by
  simp only [DateTime.leB, Bool.or_eq_true, Bool.and_eq_true, decide_eq_true_eq, beq_iff_eq]
  omega

theorem DateTime.leB_trans (a b c : DateTime) (h1 : DateTime.leB a b = true)
    (h2 : DateTime.leB b c = true) : DateTime.leB a c = true := by
  simp only [DateTime.leB, Bool.or_eq_true, Bool.and_eq_true, decide_eq_true_eq,
    beq_iff_eq] at h1 h2 ⊢
  omega

/-! ## Slug helper lemmas -/

theorem space_toNat : (' ' : Char).toNat = 32 := rfl

theorem char_space_iff (c : Char) : c = ' ' ↔ c.toNat = 32 :=
  ⟨fun h => h ▸ rfl, fun h => char_eq_of_toNat_eq (h.trans rfl)⟩

theorem toLower_eq_self_of_not_upper (c : Char) (h : c.isUpper = false) :
    Char.toLower c = c := by
  apply char_eq_of_toNat_eq
  rw [toLower_toNat, if_neg]
  intro hc
  rw [Bool.eq_false_iff] at h
  exact h (isUpper_iff c |>.mpr hc)

/-- Every character that `slugChars` emits is a non-upper-case, non-space
alphanumeric character or a hyphen. -/
theorem slugChars_mem (l : List Char) (c : Char) (hc : c ∈ slugChars l) :
    (c.isAlphanum = true ∧ c.isUpper = false ∧ c ≠ ' ') ∨ c = '-' := by
  simp only [slugChars, List.mem_map, List.mem_filter] at hc
  obtain ⟨b, ⟨⟨a, _, rfl⟩, hbKeep⟩, rfl⟩ := hc
  by_cases hsp : Char.toLower a == ' '
  · right; simp [hsp]
  · left
    rw [if_neg hsp]
    simp only [hsp, Bool.or_false] at hbKeep
    refine ⟨hbKeep, ?_, by simpa using hsp⟩
    have h := toLower_toNat a
    rw [Bool.eq_false_iff]
    intro hup
    rw [isUpper_iff] at hup
    split at h <;> omega

/-- `slugChars` leaves a list alone when every character is already a
non-upper-case, non-space alphanumeric character. -/
theorem slugChars_fixed (l : List Char)
    (h : ∀ c ∈ l, c.isAlphanum = true ∧ c.isUpper = false ∧ c ≠ ' ') :
    slugChars l = l := by
  induction l with
  | nil => rfl
  | cons c rest ih =>
    obtain ⟨h1, h2, h3⟩ := h c (List.mem_cons_self c rest)
    have hl : Char.toLower c = c := toLower_eq_self_of_not_upper c h2
    have hrest : slugChars rest = rest := ih (fun x hx => h x (List.mem_cons_of_mem c hx))
    simp only [slugChars, List.map_cons, hl, List.filter_cons] at *
    rw [if_pos (by simp [h1])]
    simp only [List.map_cons]
    rw [if_neg (by simpa using h3)]
    exact congrArg (c :: ·) hrest

theorem toLower_ne_space (a : Char) (ha : a ≠ ' ') : Char.toLower a ≠ ' ' := by
  intro hsp
  rw [char_space_iff] at hsp
  have h := toLower_toNat a
  apply ha
  rw [char_space_iff]
  split at h <;> omega

/-- When the input has no space, every character `slugChars` emits is a
non-upper-case, non-space alphanumeric character. -/
theorem slugChars_no_space_mem (l : List Char) (hl : ' ' ∉ l) (c : Char)
    (hc : c ∈ slugChars l) :
    c.isAlphanum = true ∧ c.isUpper = false ∧ c ≠ ' ' := by
  rcases slugChars_mem l c hc with h | rfl
  · exact h
  · exfalso
    simp only [slugChars, List.mem_map, List.mem_filter] at hc
    obtain ⟨b, ⟨⟨a, haMem, rfl⟩, hbKeep⟩, hbEq⟩ := hc
    have haSp : a ≠ ' ' := fun h => hl (h ▸ haMem)
    have hbSp : Char.toLower a ≠ ' ' := toLower_ne_space a haSp
    rw [if_neg (by simpa using hbSp)] at hbEq
    simp only [hbEq] at hbKeep hbSp ⊢
    rcases Bool.or_eq_true _ _ |>.mp hbKeep with hAl | hSp2
    · rw [isAlphanum_iff] at hAl
      have : ('-' : Char).toNat = 45 := rfl
      omega
    · simp at hSp2

/-! ## Claim C3: slug idempotence -/

/-- C3 (counterexample): `deriveSlug` is not idempotent — a space in the
title becomes a hyphen, and the hyphen is dropped on re-application. -/
theorem C3_counterexample :
    generate_post_file_name (generate_post_file_name "a b") ≠
      generate_post_file_name "a b" := by
  decide

/-- C3 (amended): `deriveSlug` is idempotent on every title that contains
no space character. -/
theorem C3_slug_idempotent_no_space (title : String) (h : ' ' ∉ title.data) :
    generate_post_file_name (generate_post_file_name title) =
      generate_post_file_name title := by
  show (⟨slugChars (slugChars title.data)⟩ : String) = ⟨slugChars title.data⟩
  exact congrArg String.mk (slugChars_fixed _ (slugChars_no_space_mem title.data h))

theorem C3_witness :
    (' ' ∉ ("Hello" : String).data) ∧
    generate_post_file_name (generate_post_file_name "Hello") =
      generate_post_file_name "Hello" :=
  ⟨by decide, C3_slug_idempotent_no_space "Hello" (by decide)⟩

/-! ## Claim C10: the slug alphabet -/

/-- C10: every character of a derived slug is a (non-upper-case, non-space)
alphanumeric character or a hyphen; in particular the slug never contains
a space or an upper-case letter. -/
theorem C10_slug_alphabet (title : String) (c : Char)
    (hc : c ∈ (generate_post_file_name title).data) :
    (c.isAlphanum = true ∧ c.isUpper = false ∧ c ≠ ' ') ∨ c = '-' :=
  slugChars_mem title.data c hc

theorem C10_witness :
    ('b' ∈ (generate_post_file_name "Ab c").data) ∧
    (('b'.isAlphanum = true ∧ 'b'.isUpper = false ∧ 'b' ≠ ' ') ∨ 'b' = '-') :=
  ⟨by decide, C10_slug_alphabet "Ab c" 'b' (by decide)⟩

/-! ## Claim C5: stable sort, most recent first -/

/-- C5: `sortByDateDescending` permutes its input into non-increasing date
order, and posts with identical timestamps retain their relative input
order (the filter at any fixed timestamp is unchanged). -/
theorem C5_sort_stable_descending (posts : List Post) :
    List.Perm (sortByDateDescending posts) posts ∧
    (sortByDateDescending posts).Pairwise
      (fun a b => DateTime.leB b.date a.date = true) ∧
    ∀ d : DateTime,
      (sortByDateDescending posts).filter (fun p => p.date == d) =
        posts.filter (fun p => p.date == d) := by
  refine ⟨List.mergeSort_perm posts _, ?_, ?_⟩
  · exact List.sorted_mergeSort
      (fun a b c hab hbc => DateTime.leB_trans c.date b.date a.date hbc hab)
      (fun a b => DateTime.leB_total b.date a.date) posts
  · intro d
    set p : Post → Bool := fun q => q.date == d with hp
    have hsub : (posts.filter p).Sublist (sortByDateDescending posts) := by
      apply List.sublist_mergeSort
        (fun a b c hab hbc => DateTime.leB_trans c.date b.date a.date hbc hab)
        (fun a b => DateTime.leB_total b.date a.date)
      · apply List.pairwise_of_forall_mem_list
        intro a ha b hb
        have ha2 : a.date = d := by simpa [hp] using (List.mem_filter.mp ha).2
        have hb2 : b.date = d := by simpa [hp] using (List.mem_filter.mp hb).2
        rw [hb2, ha2]
        exact DateTime.leB_refl d
      · exact List.filter_sublist posts
    have hsub2 : (posts.filter p).Sublist ((sortByDateDescending posts).filter p) := by
      have h2 := List.Sublist.filter p hsub
      simpa only [List.filter_filter, Bool.and_self] using h2
    have hperm : ((sortByDateDescending posts).filter p).Perm (posts.filter p) :=
      (List.mergeSort_perm posts _).filter p
    exact (hsub2.eq_of_length hperm.length_eq.symm).symm

/-! ## Claim C8: relative path derivation -/

theorem slug_head_not_slash (title : String) :
    (generate_post_file_name title).data.head? ≠ some '/' := by
  intro h
  have hm : '/' ∈ (generate_post_file_name title).data := by
    cases hd : (generate_post_file_name title).data with
    | nil => rw [hd] at h; simp at h
    | cons c rest =>
      rw [hd] at h
      simp only [List.head?] at h
      rw [List.mem_cons]
      exact Or.inl (Option.some.inj h).symm
  rcases slugChars_mem title.data '/' hm with ⟨hAl, _, _⟩ | hHy
  · rw [isAlphanum_iff] at hAl
    have : ('/' : Char).toNat = 47 := rfl
    omega
  · exact absurd hHy (by decide)

theorem formatDatePath_getLast (d : DateTime) :
    (formatDatePath d).data.getLast? = some '/' := by
  show ((padNum 4 d.year ++ "/" ++ padNum 2 d.month ++ "/" ++ padNum 2 d.day ++ "/").data).getLast? = some '/'
  rw [String.data_append]
  exact List.getLast?_concat _

theorem formatDatePath_ne_nil (d : DateTime) : (formatDatePath d).data ≠ [] := by
  intro h
  have := formatDatePath_getLast d
  rw [h] at this
  simp at this

/-- C8: the derived relative path is the `YYYY/MM/DD/`-formatted date
followed directly by the title's slug; in particular `"My Post"` dated
2024-03-07 maps to `"2024/03/07/my-post"`, and
`deriveSlug("Hello, World!") = "hello-world"`. -/
theorem C8_relative_path :
    (∀ (title : String) (d : DateTime),
      generate_post_file_path title d = formatDatePath d ++ generate_post_file_name title) ∧
    generate_post_file_path "My Post" ⟨2024, 3, 7, 0, 0⟩ = "2024/03/07/my-post" ∧
    generate_post_file_name "Hello, World!" = "hello-world" := by
  refine ⟨?_, by decide, by decide⟩
  intro title d
  unfold generate_post_file_path pathJoin
  rw [if_neg (slug_head_not_slash title), if_neg (formatDatePath_ne_nil d),
    if_pos (formatDatePath_getLast d)]

/-! ## Claim C7: teaser extraction -/

theorem partBefore_of_no_match (sep : List Char) (l : List Char)
    (h : ∀ i, sep.isPrefixOf (l.drop i) = false) : partBefore sep l = l := by
  induction l with
  | nil => rfl
  | cons c rest ih =>
    have h0 : sep.isPrefixOf (c :: rest) = false := by simpa using h 0
    simp only [partBefore, h0, Bool.false_eq_true, if_false]
    exact congrArg (c :: ·) (ih (fun i => by simpa using h (i + 1)))

theorem partBefore_of_first_match (sep : List Char) :
    ∀ (l : List Char) (i : Nat), sep.isPrefixOf (l.drop i) = true →
      (∀ j, j < i → sep.isPrefixOf (l.drop j) = false) →
      partBefore sep l = l.take i
  | [], i, _, _ => by simp [partBefore]
  | c :: rest, 0, hi, _ => by
    simp only [List.drop_zero] at hi
    simp [partBefore, hi]
  | c :: rest, i + 1, hi, hmin => by
    have h0 : sep.isPrefixOf (c :: rest) = false := by simpa using hmin 0 (Nat.succ_pos i)
    simp only [partBefore, h0, Bool.false_eq_true, if_false, List.take_succ_cons]
    refine congrArg (c :: ·) (partBefore_of_first_match sep rest i ?_ ?_)
    · simpa using hi
    · intro j hj
      simpa using hmin (j + 1) (Nat.succ_lt_succ hj)

theorem loadPost_fields (html : String) (mm : List (String × List String))
    (bp cu br : String) (post : Post)
    (h : loadPost html mm bp cu br = some post) :
    post.teaser = partitionBefore html moreMarker ∧ post.body = html := by
  simp only [loadPost, bind, Option.bind_eq_some] at h
  obtain ⟨ts, hts, h⟩ := h
  obtain ⟨t, ht, h⟩ := h
  obtain ⟨cs, hcs, h⟩ := h
  obtain ⟨cl, hcl, h⟩ := h
  obtain ⟨ds, hds, h⟩ := h
  obtain ⟨dl, hdl, h⟩ := h
  obtain ⟨dt, hdt, h⟩ := h
  cases h
  exact ⟨rfl, rfl⟩

/-- C7: the teaser is the part of the rendered body strictly before the
first occurrence of the literal `<!--more-->` marker, and the whole body
when the marker is absent; the loader stores the split result as
`teaser` and keeps `body` as the untouched rendered HTML. -/
theorem C7_teaser_split (s : String) :
    ((∀ i, moreMarker.data.isPrefixOf (s.data.drop i) = false) →
      partitionBefore s moreMarker = s) ∧
    (∀ i, moreMarker.data.isPrefixOf (s.data.drop i) = true →
      (∀ j, j < i → moreMarker.data.isPrefixOf (s.data.drop j) = false) →
      partitionBefore s moreMarker = ⟨s.data.take i⟩) ∧
    (∀ (mm : List (String × List String)) (bp cu br : String) (post : Post),
      loadPost s mm bp cu br = some post →
      post.teaser = partitionBefore s moreMarker ∧ post.body = s) := by
  refine ⟨?_, ?_, ?_⟩
  · intro h
    show (⟨partBefore moreMarker.data s.data⟩ : String) = s
    rw [partBefore_of_no_match moreMarker.data s.data h]
  · intro i hi hmin
    exact congrArg String.mk (partBefore_of_first_match moreMarker.data s.data i hi hmin)
  · exact fun mm bp cu br post h => loadPost_fields s mm bp cu br post h

theorem C7_witness :
    partitionBefore "<p>intro</p><!--more--><p>rest</p>" moreMarker =
      ⟨("<p>intro</p><!--more--><p>rest</p>" : String).data.take 12⟩ ∧
    (⟨("<p>intro</p><!--more--><p>rest</p>" : String).data.take 12⟩ : String) =
      "<p>intro</p>" :=
  ⟨(C7_teaser_split "<p>intro</p><!--more--><p>rest</p>").2.1 12 (by decide) (by decide),
   by decide⟩

/-! ## Claim C2: a missing `categories` key -/

/-- C2 (counterexample): a post whose metadata has `title` and `date` but
no `categories` key is not loaded — the lookup `Meta['categories']`
fails, so the loader produces no post at all. -/
theorem C2_counterexample :
    loadPost "<p>hi</p>" metaNoCats "blog" "http://example.com" "" = none := by
  decide

/-- C2 (amended): whenever the metadata map lacks the `categories` key,
loading the post fails (a `KeyError` in the Python source); the post is
not returned with an empty category list. -/
theorem C2_missing_categories_fails (generated_html : String)
    (mm : List (String × List String)) (bp cu br : String)
    (h : metaLookup mm "categories" = none) :
    loadPost generated_html mm bp cu br = none := by
  simp only [loadPost, bind, h, Option.none_bind]
  cases metaLookup mm "title" with
  | none => rfl
  | some ts =>
    simp only [Option.some_bind]
    cases ts.head? with
    | none => rfl
    | some t => rfl

theorem C2_witness :
    metaLookup [("title", ["T"]), ("date", ["2024-01-02 08:30"])] "categories" = none ∧
    loadPost "<p>text</p>" [("title", ["T"]), ("date", ["2024-01-02 08:30"])]
      "" "http://example.org" "" = none :=
  ⟨by decide,
   C2_missing_categories_fails "<p>text</p>" [("title", ["T"]), ("date", ["2024-01-02 08:30"])]
     "" "http://example.org" "" (by decide)⟩

/-! ## Claim C4: previous-post linking -/

/-- C4: `post_previous` of the post at index `i` is the post at index
`i + 1` (the next-older post), and for the last post it wraps around to
the post at index `0` (the newest). -/
theorem C4_link_previous (posts : List Post) :
    (∀ i, i + 1 < posts.length →
      (linkPrevious posts)[i]? =
        some (posts.getD i default, posts.getD (i + 1) default)) ∧
    (posts ≠ [] →
      (linkPrevious posts)[posts.length - 1]? =
        some (posts.getD (posts.length - 1) default, posts.getD 0 default)) := by
  constructor
  · intro i hi
    unfold linkPrevious
    rw [List.getElem?_map, List.getElem?_range (by omega)]
    simp only [Option.map_some']
    rw [if_pos hi]
  · intro hne
    have hlen : 0 < posts.length := List.length_pos.mpr hne
    unfold linkPrevious
    rw [List.getElem?_map, List.getElem?_range (by omega)]
    simp only [Option.map_some']
    rw [if_neg (by omega)]

theorem C4_witness :
    (linkPrevious threePosts)[0]? = some (tP1, tP2) ∧
    (linkPrevious threePosts)[1]? = some (tP2, tP3) ∧
    (linkPrevious threePosts)[2]? = some (tP3, tP1) := by
  have h := C4_link_previous threePosts
  refine ⟨?_, ?_, ?_⟩
  · exact (h.1 0 (by decide)).trans (by decide)
  · exact (h.1 1 (by decide)).trans (by decide)
  · exact (h.2 (by decide)).trans (by decide)

/-! ## Claim C9: fatal error on an empty body -/

/-- C9: rendering a post fails exactly when its rendered body is empty,
the error message names the post's relative path, and in that case no
(path, content) output pair is produced. -/
theorem C9_empty_body_fatal (post : Post) (output_dir : String)
    (render : Post → String) :
    ((∃ msg, generate_post post output_dir render = Except.error msg) ↔
      post.body = "") ∧
    (post.body = "" →
      generate_post post output_dir render =
        Except.error ("No content for post [" ++ post.relative_path ++ "] found.")) := by
  constructor
  · constructor
    · rintro ⟨msg, hmsg⟩
      by_contra hne
      simp only [generate_post, if_neg hne] at hmsg
      exact Except.noConfusion hmsg
    · intro hb
      exact ⟨"No content for post [" ++ post.relative_path ++ "] found.",
        by simp only [generate_post, if_pos hb]⟩
  · intro hb
    simp only [generate_post, if_pos hb]

theorem C9_witness :
    generate_post emptyBodyPost "generated" (fun _ => "<html></html>") =
      Except.error "No content for post [2024/01/01/empty] found." :=
  (C9_empty_body_fatal emptyBodyPost "generated" (fun _ => "<html></html>")).2 rfl

/-! ## Claim C6: category grouping -/

theorem categoryFold_inner (p : Post) (cat : String) (cats : List String)
    (acc : List Post) :
    cats.foldl (fun acc2 c => if c == cat then acc2 ++ [p] else acc2) acc =
      acc ++ List.replicate (cats.count cat) p := by
  induction cats generalizing acc with
  | nil => simp
  | cons c rest ih =>
    rw [List.foldl_cons, ih, List.count_cons]
    by_cases h : c == cat
    · rw [if_pos h, if_pos h, List.append_assoc, List.replicate_succ]
      rfl
    · rw [if_neg h, if_neg h, Nat.add_zero]

theorem categoryBucket_flatMap (posts : List Post) (cat : String) :
    categoryBucket posts cat =
      posts.flatMap (fun p => List.replicate (p.categories.count cat) p) := by
  unfold categoryBucket
  suffices hgen : ∀ acc : List Post,
      posts.foldl
        (fun acc p =>
          p.categories.foldl (fun acc2 c => if c == cat then acc2 ++ [p] else acc2) acc)
        acc =
        acc ++ posts.flatMap (fun p => List.replicate (p.categories.count cat) p) by
    simpa using hgen []
  induction posts with
  | nil => intro acc; simp
  | cons p rest ih =>
    intro acc
    rw [List.foldl_cons, categoryFold_inner, ih, List.flatMap_cons, List.append_assoc]

/-- C6: each category's bucket holds, in input order, one copy of a post
per declaration of that category; when no post declares a category twice
the bucket is exactly the in-order filter of the posts declaring it, and
a post with an empty category list lands in no bucket. -/
theorem C6_category_buckets (posts : List Post) (cat : String) :
    categoryBucket posts cat =
      posts.flatMap (fun p => List.replicate (p.categories.count cat) p) ∧
    ((∀ p ∈ posts, p.categories.Nodup) →
      categoryBucket posts cat =
        posts.filter (fun p => p.categories.contains cat)) ∧
    (∀ p : Post, p.categories = [] → p ∉ categoryBucket posts cat) := by
  refine ⟨categoryBucket_flatMap posts cat, ?_, ?_⟩
  · intro hnd
    rw [categoryBucket_flatMap]
    induction posts with
    | nil => rfl
    | cons p rest ih =>
      rw [List.flatMap_cons, List.filter_cons,
        ih (fun q hq => hnd q (List.mem_cons_of_mem p hq))]
      by_cases hmem : cat ∈ p.categories
      · rw [if_pos (List.elem_eq_true_of_mem hmem)]
        rw [List.count_eq_one_of_mem (hnd p (List.mem_cons_self p rest)) hmem]
        rfl
      · rw [if_neg (fun hc => hmem (List.mem_of_elem_eq_true hc))]
        rw [List.count_eq_zero_of_not_mem hmem]
        rfl
  · intro p hp hmem
    rw [categoryBucket_flatMap] at hmem
    rw [List.mem_flatMap] at hmem
    obtain ⟨q, _, hrep⟩ := hmem
    rw [List.mem_replicate] at hrep
    obtain ⟨hcount, rfl⟩ := hrep
    rw [hp] at hcount
    exact hcount (List.count_nil cat)

theorem C6_witness :
    categoryBucket [tP1, tP2] "a" = [tP1, tP2] ∧
    categoryBucket [tP1, tP2] "b" = [tP2] := by
  have ha := (C6_category_buckets [tP1, tP2] "a").2.1 (by decide)
  have hb := (C6_category_buckets [tP1, tP2] "b").2.1 (by decide)
  exact ⟨ha.trans (by decide), hb.trans (by decide)⟩

/-! ## Claim C1: pagination windows -/

theorem pagination_guard (p len : Nat) :
    (if ((p * 5 : Int) ≥ (len : Int) - 5) then (none : Option Nat) else some (p + 1)) =
      if len ≤ p * 5 + 5 then none else some (p + 1) := by
  by_cases h : len ≤ p * 5 + 5
  · rw [if_pos (by omega), if_pos h]
  · rw [if_neg (by omega), if_neg h]

theorem paginateFrom_getElem (all : List Post) :
    ∀ (j offset page : Nat),
      (paginateFrom all offset page)[j]? =
        if offset + 5 * j < all.length then
          some { current_posts := (all.drop (offset + 5 * j)).take 5,
                 page := page + j,
                 next_page :=
                   if all.length ≤ (page + j) * 5 + 5 then none
                   else some (page + j + 1) }
        else none
  | 0, offset, page => by
    rw [paginateFrom]
    by_cases h : offset < all.length
    · rw [if_pos h, List.getElem?_cons_zero, if_pos (by omega : offset + 5 * 0 < all.length)]
      simp only [Nat.mul_zero, Nat.add_zero]
      rw [pagination_guard page all.length]
    · rw [if_neg h, if_neg (by omega)]
      rfl
  | j + 1, offset, page => by
    rw [paginateFrom]
    split
    · rw [List.getElem?_cons_succ, paginateFrom_getElem all j (offset + 5) (page + 1),
        show offset + 5 + 5 * j = offset + 5 * (j + 1) by omega,
        show page + 1 + j = page + (j + 1) by omega]
    · rename_i h
      rw [if_neg (by omega)]
      rfl

/-- C1: for every `k ≥ 1`, window `k` exists exactly when `5 * k` is
still within the post list; it covers `posts[5k : 5k + 5]`, and its
`next_page` is `k + 1` unless `5k ≥ totalPosts - 5`, in which case it is
`none`.  Iteration stops before the first empty window. -/
theorem C1_pagination (posts : List Post) (k : Nat) (hk : 1 ≤ k) :
    (generate_pagination_pages posts)[k - 1]? =
      if 5 * k < posts.length then
        some { current_posts := (posts.drop (5 * k)).take 5,
               page := k,
               next_page := if posts.length - 5 ≤ 5 * k then none else some (k + 1) }
      else none := by
  unfold generate_pagination_pages
  rw [paginateFrom_getElem posts (k - 1) 5 1,
    show 5 + 5 * (k - 1) = 5 * k by omega,
    show 1 + (k - 1) = k by omega]
  by_cases h : 5 * k < posts.length
  · rw [if_pos h, if_pos h]
    have hnext : (if posts.length ≤ k * 5 + 5 then (none : Option Nat)
        else some (k + 1)) = if posts.length - 5 ≤ 5 * k then none else some (k + 1) := by
      by_cases h2 : posts.length - 5 ≤ 5 * k
      · rw [if_pos (by omega), if_pos h2]
      · rw [if_neg (by omega), if_neg h2]
    rw [hnext]
  · rw [if_neg h, if_neg h]

theorem C1_witness :
    (generate_pagination_pages samplePosts12)[0]? =
      some { current_posts := (samplePosts12.drop 5).take 5, page := 1,
             next_page := some 2 } ∧
    (generate_pagination_pages samplePosts12)[1]? =
      some { current_posts := (samplePosts12.drop 10).take 5, page := 2,
             next_page := none } ∧
    (generate_pagination_pages samplePosts12)[2]? = none := by
  have h1 := C1_pagination samplePosts12 1 (by decide)
  have h2 := C1_pagination samplePosts12 2 (by decide)
  have h3 := C1_pagination samplePosts12 3 (by decide)
  exact ⟨h1.trans (by decide), h2.trans (by decide), h3.trans (by decide)⟩
